import Mathlib

/-!
Verification of the rxjs-demo repository: a PostService (HTTP fetch with
retry(2), transformPost mapping, shareReplay(1) cache, clearCache) and a
PostsComponent (combineLatest of search term, owner filter and refresh
triggers, switchMap into the service, client-side search filter and sort).

JS strings are modelled as lists of characters so that every operation is
structurally computable; JS numbers appearing in the data model are integers
and are modelled as Int.
-/

namespace RxDemo

/-- JS strings are modelled as lists of characters. -/
abbrev Str := List Char

/-- JS String.prototype.toLowerCase (ASCII case mapping, per Char.toLower). -/
def jsToLower (s : Str) : Str := s.map Char.toLower

/-- matchesAt needle hay: needle occurs at the head of hay. -/
def matchesAt : Str → Str → Bool
  | [], _ => true
  | _ :: _, [] => false
  | c :: cs, d :: ds => c = d && matchesAt cs ds

/-- JS String.prototype.includes: needle occurs contiguously somewhere in hay. -/
def jsIncludes : Str → Str → Bool
  | [], needle => matchesAt needle []
  | c :: t, needle => matchesAt needle (c :: t) || jsIncludes t needle

/-- JS String.prototype.split with a single-character separator. -/
def jsSplit (sep : Char) : Str → List Str
  | [] => [[]]
  | c :: cs =>
    let r := jsSplit sep cs
    if c = sep then [] :: r
    else
      match r with
      | [] => [[c]]
      | w :: ws => (c :: w) :: ws

/-- JS Array.prototype.join with a single-character separator. -/
def jsJoin (sep : Char) (ws : List Str) : Str := List.intercalate [sep] ws

/-- JS String.prototype.trim: strip whitespace from both ends. -/
def jsTrim (s : Str) : Str :=
  ((s.dropWhile Char.isWhitespace).reverse.dropWhile Char.isWhitespace).reverse

/-- The raw API record (post.model.ts, Post). -/
structure Post where
  id : Int
  userId : Int
  title : Str
  body : Str
deriving DecidableEq, Repr

/-- The derived record (post.model.ts, PostViewModel). -/
structure PostViewModel where
  id : Int
  userId : Int
  title : Str
  body : Str
  wordCount : Nat
  excerpt : Str
deriving DecidableEq, Repr

/-- word.charAt(0).toUpperCase() + word.slice(1) on one word. -/
def capWord : Str → Str
  | [] => []
  | c :: cs => c.toUpper :: cs

/-- PostService.capitalizeTitle: title.split(' ').map(capWord).join(' '). -/
def capitalizeTitle (title : Str) : Str :=
  jsJoin ' ' ((jsSplit ' ' title).map capWord)

/-- post.body.split(' ').length, the wordCount computed by transformPost. -/
def countWords (body : Str) : Nat := (jsSplit ' ' body).length

/-- post.body.substring(0, 100) + '...', the excerpt computed by transformPost. -/
def makeExcerpt (body : Str) : Str := body.take 100 ++ "...".data

/-- PostService.transformPost: spread the post, overriding title, and add the
derived wordCount and excerpt fields. -/
def transformPost (p : Post) : PostViewModel :=
  { id := p.id, userId := p.userId, body := p.body,
    title := capitalizeTitle p.title,
    wordCount := countWords p.body,
    excerpt := makeExcerpt p.body }

/-- The search predicate of the component (and of PostService.searchPosts):
the term is a case-insensitive contiguous segment of title or body. -/
def matchesSearch (term : Str) (p : PostViewModel) : Bool :=
  jsIncludes (jsToLower p.title) (jsToLower term)
    || jsIncludes (jsToLower p.body) (jsToLower term)

/-- The search step inside the component switchMap:
searchTerm ? posts.filter(...) : posts (the empty string is falsy in JS). -/
def applySearch (term : Str) (posts : List PostViewModel) : List PostViewModel :=
  if term = [] then posts else posts.filter (fun p => matchesSearch term p)

/-- The sortBy union of PostsComponent. -/
inductive SortField
  | id
  | title
  | userId
deriving DecidableEq, Repr

/-- The sortOrder union of PostsComponent. -/
inductive SortOrder
  | asc
  | desc
deriving DecidableEq, Repr

/-- title.localeCompare(other) modelled as lexicographic character comparison
returning a negative, zero or positive Int. -/
def lexCompare : Str → Str → Int
  | [], [] => 0
  | [], _ :: _ => -1
  | _ :: _, [] => 1
  | c :: cs, d :: ds => if c < d then -1 else if d < c then 1 else lexCompare cs ds

/-- The comparator body inside PostsComponent.sortPosts (the switch statement). -/
def comparePosts (f : SortField) (a b : PostViewModel) : Int :=
  match f with
  | .id => a.id - b.id
  | .title => lexCompare a.title b.title
  | .userId => a.userId - b.userId

/-- The comparator after applying the direction: asc returns comparison,
desc returns -comparison. -/
def directedCompare (f : SortField) (o : SortOrder) (a b : PostViewModel) : Int :=
  match o with
  | .asc => comparePosts f a b
  | .desc => -(comparePosts f a b)

/-- PostsComponent.sortPosts: [...posts].sort(comparator). JS Array sort is a
stable sort consistent with the comparator, modelled by insertion sort with
the relation "comparator result is not positive". -/
def sortPosts (posts : List PostViewModel) (f : SortField) (o : SortOrder) :
    List PostViewModel :=
  List.insertionSort (fun a b => directedCompare f o a b ≤ 0) posts

/-- The component sort controls (fields sortBy and sortOrder). -/
structure SortState where
  sortBy : SortField
  sortOrder : SortOrder
deriving DecidableEq, Repr

def flipOrder : SortOrder → SortOrder
  | .asc => .desc
  | .desc => .asc

/-- PostsComponent.changeSort: toggle the direction when the field is already
active, otherwise select the new field with ascending direction. -/
def changeSort (f : SortField) (s : SortState) : SortState :=
  if s.sortBy = f then { sortBy := s.sortBy, sortOrder := flipOrder s.sortOrder }
  else { sortBy := f, sortOrder := .asc }

/-- An HttpErrorResponse: either a client-side ErrorEvent or a server response. -/
inductive HttpErr
  | client (msg : Str)
  | server (status : Int) (msg : Str)
deriving DecidableEq, Repr

/-- Decimal digits of an Int, for the interpolated error message. -/
def intToStr (i : Int) : Str :=
  match i with
  | .ofNat n => Nat.toDigits 10 n
  | .negSucc n => '-' :: Nat.toDigits 10 (n + 1)

/-- PostService.handleError: format a user-facing message from the error. -/
def handleError : HttpErr → Str
  | .client m => "Error: ".data ++ m
  | .server st m => "Error code: ".data ++ intToStr st ++ ", Message: ".data ++ m

/-- The network: outcome of the n-th HTTP GET issued to the all-posts endpoint. -/
abbrev Net := Nat → Except HttpErr (List Post)

/-- retry(2): the initial subscription plus at most two resubscriptions of
http.get; returns the final outcome and the number of attempts issued. -/
def retryTwice (net : Net) (start : Nat) : Except HttpErr (List Post) × Nat :=
  match net start with
  | .ok v => (.ok v, 1)
  | .error _ =>
    match net (start + 1) with
    | .ok v => (.ok v, 2)
    | .error _ =>
      match net (start + 2) with
      | .ok v => (.ok v, 3)
      | .error e => (.error e, 3)

/-- One subscription of the cached pipeline: http.get + retry(2) + map into
view models. shareReplay(1) stores this outcome; catchError sits after it. -/
def fetchAllOnce (net : Net) (start : Nat) : Except HttpErr (List PostViewModel) × Nat :=
  let r := retryTwice net start
  (r.1.map (fun ps => ps.map transformPost), r.2)

/-- PostService state: the postsCache reference, plus instrumentation counting
HTTP attempts (requests) and pipeline subscriptions (fetches). -/
structure SvcState where
  postsCache : Option (Except HttpErr (List PostViewModel))
  requests : Nat
  fetches : Nat

/-- The catchError(handleError) stage, applied per subscription after the
shareReplay cache: errors are mapped to the formatted message. -/
def viewResult : Except HttpErr (List PostViewModel) → Except Str (List PostViewModel)
  | .ok ps => .ok ps
  | .error e => .error (handleError e)

/-- PostService.getAllPosts: return the cached stream when present, otherwise
run the pipeline once, cache its replayed outcome, and return it. -/
def getAllPosts (net : Net) (s : SvcState) :
    Except Str (List PostViewModel) × SvcState :=
  match s.postsCache with
  | some c => (viewResult c, s)
  | none =>
    let r := fetchAllOnce net s.requests
    (viewResult r.1,
      { postsCache := some r.1, requests := s.requests + r.2, fetches := s.fetches + 1 })

/-- PostService.clearCache: drop the cached stream reference. -/
def clearCache (s : SvcState) : SvcState :=
  { postsCache := none, requests := s.requests, fetches := s.fetches }

/-- n successive getAllPosts calls, each subscribed once. -/
def runCalls (net : Net) : Nat → SvcState → List (Except Str (List PostViewModel)) × SvcState
  | 0, s => ([], s)
  | n + 1, s =>
    let r := getAllPosts net s
    let rest := runCalls net n r.2
    (r.1 :: rest.1, rest.2)

/-- error.message || 'An error occurred while loading posts' (empty string is
falsy in JS). -/
def componentErrMsg (m : Str) : Str :=
  if m = [] then "An error occurred while loading posts".data else m

/-- The inner pipe of the component switchMap: on data, apply the search
filter then sortPosts; on error, record the message and deliver of([]). -/
def deriveView (term : Str) (f : SortField) (o : SortOrder) :
    Except Str (List PostViewModel) → List PostViewModel × Option Str
  | .ok ps => (sortPosts (applySearch term ps) f o, none)
  | .error m => ([], some (componentErrMsg m))

/-- A value arriving from the owner-filter control (JS number, null, undefined
or string; numbers restricted to integers in this model). -/
inductive CtrlValue
  | num (n : Int)
  | null
  | undef
  | str (s : Str)
deriving DecidableEq, Repr

/-- The longest leading run of decimal digits, or none when there is none. -/
def leadingDigits (cs : Str) : Option Nat :=
  let ds := cs.takeWhile Char.isDigit
  if ds = [] then none
  else some (ds.foldl (fun acc c => acc * 10 + (c.toNat - 48)) 0)

/-- JS parseInt(s, 10): skip leading whitespace, accept an optional sign, and
parse the longest leading digit run; NaN (none) when no digit follows. -/
def jsParseInt (s : Str) : Option Int :=
  match s.dropWhile Char.isWhitespace with
  | '-' :: rest => (leadingDigits rest).map (fun n => -(n : Int))
  | '+' :: rest => (leadingDigits rest).map (fun n => (n : Int))
  | t => (leadingDigits t).map (fun n => (n : Int))

/-- The owner-filter normalization map in PostsComponent.ngOnInit. -/
def normalizeUserId : CtrlValue → Option Int
  | .null => none
  | .undef => none
  | .str s =>
    if s = [] then none
    else if s = "null".data ∨ jsTrim s = [] then none
    else jsParseInt s
  | .num n => some n

/-- One combined emission of combineLatest([searchTerm, userId, refresh]). -/
structure Combo where
  term : Str
  userId : Option Int
deriving DecidableEq, Repr

/-- Which service call the switchMap subscribes for a combination. -/
inductive FetchKind
  | all
  | byUser (u : Int)
deriving DecidableEq, Repr

/-- The source selection inside the component switchMap: getPostsByUser when
the owner filter is set, getAllPosts otherwise. -/
def fetchOf (c : Combo) : FetchKind :=
  match c.userId with
  | some u => .byUser u
  | none => .all

/-- switchMap bookkeeping: the in-flight inner fetch, the inner fetches that
were unsubscribed before responding, and the results delivered downstream. -/
structure SwitchState where
  active : Option FetchKind
  cancelled : List FetchKind
  delivered : List FetchKind
deriving DecidableEq, Repr

def initSwitch : SwitchState := { active := none, cancelled := [], delivered := [] }

/-- A new combined emission: switchMap unsubscribes the in-flight inner fetch,
if any, and subscribes a fresh one for the new combination. -/
def onEmit (s : SwitchState) (c : Combo) : SwitchState :=
  { active := some (fetchOf c),
    cancelled := s.cancelled ++ s.active.toList,
    delivered := s.delivered }

/-- The surviving in-flight fetch responds: its result is delivered. -/
def onSettle (s : SwitchState) : SwitchState :=
  match s.active with
  | some f => { active := none, cancelled := s.cancelled, delivered := s.delivered ++ [f] }
  | none => s

/-- All emissions arrive inside one debounce/combine window (before any inner
fetch responds); afterwards the surviving fetch responds. -/
def runWindow (cs : List Combo) : SwitchState :=
  onSettle (cs.foldl onEmit initSwitch)

/-- distinctUntilChanged, continuing after a first value. -/
def dedupFrom (prev : Option Int) : List (Option Int) → List (Option Int)
  | [] => []
  | x :: xs => if x = prev then dedupFrom prev xs else x :: dedupFrom x xs

/-- distinctUntilChanged: drop emissions equal to their predecessor. -/
def dedupConsec : List (Option Int) → List (Option Int)
  | [] => []
  | x :: xs => x :: dedupFrom x xs

/-- The newest combination of a nonempty emission sequence c :: rest. -/
def lastOf (c : Combo) : List Combo → Combo
  | [] => c
  | d :: ds => lastOf d ds

/-- The stale combinations of a nonempty emission sequence c :: rest
(every combination except the newest). -/
def stales (c : Combo) : List Combo → List Combo
  | [] => []
  | d :: ds => c :: stales d ds

/-- The two posts of the sort example in the spec: ids 2 and 1, titles b and a. -/
def exPostA : PostViewModel :=
  { id := 1, userId := 1, title := "a".data, body := [], wordCount := 1, excerpt := [] }

def exPostB : PostViewModel :=
  { id := 2, userId := 1, title := "b".data, body := [], wordCount := 1, excerpt := [] }

/-- Two posts sharing the same id (a sort-key tie) but different titles. -/
def tiePostA : PostViewModel :=
  { id := 1, userId := 1, title := "a".data, body := [], wordCount := 1, excerpt := [] }

def tiePostB : PostViewModel :=
  { id := 1, userId := 1, title := "b".data, body := [], wordCount := 1, excerpt := [] }

/-- A network that always answers with an empty post list. -/
def netOk : Net := fun _ => .ok []

/-- A network that always fails with a client-side error. -/
def netFail : Net := fun _ => .error (.client "boom".data)

/-! ### Comparator facts -/

lemma lexCompare_nil_nonpos (c : Str) : lexCompare [] c ≤ 0 := by
  cases c <;> simp [lexCompare]

lemma lexCompare_antisym : ∀ a b : Str, lexCompare b a = -(lexCompare a b) := by
  intro a
  induction a with
  | nil => intro b; cases b <;> simp [lexCompare]
  | cons x xs ih =>
    intro b
    cases b with
    | nil => simp [lexCompare]
    | cons y ys =>
      simp only [lexCompare]
      rcases lt_trichotomy x y with h | h | h
      · simp [h, lt_asymm h]
      · subst h; simp [lt_irrefl, ih ys]
      · simp [h, lt_asymm h]

lemma lexCompare_trans_nonpos :
    ∀ a b c : Str, lexCompare a b ≤ 0 → lexCompare b c ≤ 0 → lexCompare a c ≤ 0 := by
  intro a
  induction a with
  | nil => intro b c _ _; exact lexCompare_nil_nonpos c
  | cons x xs ih =>
    intro b c h1 h2
    cases b with
    | nil => simp [lexCompare] at h1
    | cons y ys =>
      cases c with
      | nil => simp [lexCompare] at h2
      | cons z zs =>
        simp only [lexCompare] at h1 h2 ⊢
        rcases lt_trichotomy x y with hxy | hxy | hxy
        · rcases lt_trichotomy y z with hyz | hyz | hyz
          · simp [lt_trans hxy hyz]
          · subst hyz; simp [hxy]
          · rw [if_neg (lt_asymm hyz), if_pos hyz] at h2; omega
        · subst hxy
          rcases lt_trichotomy x z with hxz | hxz | hxz
          · simp [hxz]
          · subst hxz
            simp only [lt_irrefl, if_false, ite_false] at h1 h2 ⊢
            exact ih ys zs h1 h2
          · rw [if_neg (lt_asymm hxz), if_pos hxz] at h2; omega
        · rw [if_neg (lt_asymm hxy), if_pos hxy] at h1; omega

lemma lexCompare_trans_nonneg (a b c : Str) (h1 : 0 ≤ lexCompare a b)
    (h2 : 0 ≤ lexCompare b c) : 0 ≤ lexCompare a c := by
  have e1 := lexCompare_antisym a b
  have e2 := lexCompare_antisym b c
  have e3 := lexCompare_antisym a c
  have := lexCompare_trans_nonpos c b a (by omega) (by omega)
  omega

lemma comparePosts_antisym (f : SortField) (a b : PostViewModel) :
    comparePosts f b a = -(comparePosts f a b) := by
  cases f with
  | id => simp only [comparePosts]; omega
  | title => simp only [comparePosts]; exact lexCompare_antisym _ _
  | userId => simp only [comparePosts]; omega

lemma directedCompare_antisym (f : SortField) (o : SortOrder) (a b : PostViewModel) :
    directedCompare f o b a = -(directedCompare f o a b) := by
  have h := comparePosts_antisym f a b
  cases o <;> simp only [directedCompare] <;> omega

lemma directedCompare_flip (f : SortField) (o : SortOrder) (a b : PostViewModel) :
    directedCompare f (flipOrder o) a b = -(directedCompare f o a b) := by
  cases o
  · rfl
  · show comparePosts f a b = -(-(comparePosts f a b))
    omega

lemma directedCompare_ne_zero (f : SortField) (o : SortOrder) (a b : PostViewModel)
    (h : comparePosts f a b ≠ 0) : directedCompare f o a b ≠ 0 := by
  cases o <;> simp only [directedCompare] <;> omega

instance sortRelTotal (f : SortField) (o : SortOrder) :
    IsTotal PostViewModel (fun a b => directedCompare f o a b ≤ 0) := by
  constructor
  intro a b
  have h := directedCompare_antisym f o a b
  show directedCompare f o a b ≤ 0 ∨ directedCompare f o b a ≤ 0
  omega

instance sortRelTrans (f : SortField) (o : SortOrder) :
    IsTrans PostViewModel (fun a b => directedCompare f o a b ≤ 0) := by
  constructor
  intro a b c h1 h2
  show directedCompare f o a c ≤ 0
  cases f with
  | id => cases o <;> simp only [directedCompare, comparePosts] at h1 h2 ⊢ <;> omega
  | userId => cases o <;> simp only [directedCompare, comparePosts] at h1 h2 ⊢ <;> omega
  | title =>
    cases o with
    | asc =>
      simp only [directedCompare, comparePosts] at h1 h2 ⊢
      exact lexCompare_trans_nonpos _ _ _ h1 h2
    | desc =>
      simp only [directedCompare, comparePosts] at h1 h2 ⊢
      have := lexCompare_trans_nonneg a.title b.title c.title (by omega) (by omega)
      omega

lemma sortPosts_sorted (l : List PostViewModel) (f : SortField) (o : SortOrder) :
    (sortPosts l f o).Pairwise (fun a b => directedCompare f o a b ≤ 0) :=
  List.sorted_insertionSort _ l

lemma jsIncludes_nil (hay : Str) : jsIncludes hay [] = true := by
  cases hay <;> simp [jsIncludes, matchesAt]

/-! ### Claims -/

/-- Claim C5: for every search term and fetched post list, the displayed list
is exactly the sublist of posts whose lowercased title or body contains the
lowercased term as a contiguous segment, and an empty term leaves the list
unfiltered. -/
theorem c5_search_filter (term : Str) (posts : List PostViewModel) :
    applySearch term posts
      = posts.filter (fun p =>
          jsIncludes (jsToLower p.title) (jsToLower term)
            || jsIncludes (jsToLower p.body) (jsToLower term))
    ∧ applySearch [] posts = posts := by
  constructor
  · by_cases h : term = []
    · subst h
      simp [applySearch, jsToLower, jsIncludes_nil]
    · simp [applySearch, h, matchesSearch]
  · simp [applySearch]

/-- Claim C6: the derived view is a pure function of the post: id, userId and
body are carried over unchanged, the title is the title-cased source title,
wordCount is the number of space-split segments of the body, and the excerpt
is the first 100 characters of the body followed by an ellipsis. -/
theorem c6_transform_pure (p : Post) :
    (transformPost p).id = p.id
    ∧ (transformPost p).userId = p.userId
    ∧ (transformPost p).body = p.body
    ∧ (transformPost p).title = capitalizeTitle p.title
    ∧ (transformPost p).wordCount = (jsSplit ' ' p.body).length
    ∧ (transformPost p).excerpt = p.body.take 100 ++ "...".data
    ∧ capitalizeTitle p.title = jsJoin ' ' ((jsSplit ' ' p.title).map capWord) :=
  ⟨rfl, rfl, rfl, rfl, rfl, rfl, rfl⟩

/-- Claim C7: sortPosts orders by numeric id, by title string comparison, or
by numeric userId, ascending or descending; in particular sorting the example
list by id ascending or by title ascending puts the id-1/title-a post first. -/
theorem c7_sort_comparator :
    (∀ l, (sortPosts l .id .asc).Pairwise (fun a b => a.id ≤ b.id))
    ∧ (∀ l, (sortPosts l .id .desc).Pairwise (fun a b => b.id ≤ a.id))
    ∧ (∀ l, (sortPosts l .userId .asc).Pairwise (fun a b => a.userId ≤ b.userId))
    ∧ (∀ l, (sortPosts l .userId .desc).Pairwise (fun a b => b.userId ≤ a.userId))
    ∧ (∀ l, (sortPosts l .title .asc).Pairwise (fun a b => lexCompare a.title b.title ≤ 0))
    ∧ (∀ l, (sortPosts l .title .desc).Pairwise (fun a b => lexCompare b.title a.title ≤ 0))
    ∧ sortPosts [exPostB, exPostA] .id .asc = [exPostA, exPostB]
    ∧ sortPosts [exPostB, exPostA] .title .asc = [exPostA, exPostB] := by
  refine ⟨fun l => ?_, fun l => ?_, fun l => ?_, fun l => ?_, fun l => ?_, fun l => ?_,
    by decide, by decide⟩
  · exact (sortPosts_sorted l .id .asc).imp (fun hab => by
      simp only [directedCompare, comparePosts] at hab; omega)
  · exact (sortPosts_sorted l .id .desc).imp (fun hab => by
      simp only [directedCompare, comparePosts] at hab; omega)
  · exact (sortPosts_sorted l .userId .asc).imp (fun hab => by
      simp only [directedCompare, comparePosts] at hab; omega)
  · exact (sortPosts_sorted l .userId .desc).imp (fun hab => by
      simp only [directedCompare, comparePosts] at hab; omega)
  · exact (sortPosts_sorted l .title .asc).imp (fun hab => by
      simpa only [directedCompare, comparePosts] using hab)
  · exact (sortPosts_sorted l .title .desc).imp (fun {a b} hab => by
      simp only [directedCompare, comparePosts] at hab
      have := lexCompare_antisym a.title b.title
      omega)

/-- Folding all emissions of one window through switchMap: the last emission
owns the in-flight fetch, every earlier one was started and then cancelled. -/
lemma foldl_onEmit_run :
    ∀ (rest : List Combo) (c0 : Combo) (s : SwitchState),
      (c0 :: rest).foldl onEmit s
        = { active := some (fetchOf (lastOf c0 rest)),
            cancelled := (s.cancelled ++ s.active.toList) ++ (stales c0 rest).map fetchOf,
            delivered := s.delivered } := by
  intro rest
  induction rest with
  | nil =>
    intro c0 s
    simp [onEmit, lastOf, stales]
  | cons c1 cs ih =>
    intro c0 s
    show (c1 :: cs).foldl onEmit (onEmit s c0) = _
    rw [ih c1 (onEmit s c0)]
    simp [onEmit, lastOf, stales, List.append_assoc]

/-- Claim C4: when all combined emissions of a window arrive before any inner
fetch responds, exactly one result is delivered and it is the newest
combination's fetch; every fetch started for a stale combination was
unsubscribed (appears in the cancelled list), not merely ignored. In the
owner-change scenario null, 1, 2 the delivered fetch is by-user 2 and the
all-posts and by-user-1 fetches were started and cancelled. -/
theorem c4_switch_latest (term : Str) (c0 : Combo) (rest : List Combo) :
    (runWindow (c0 :: rest)).delivered = [fetchOf (lastOf c0 rest)]
    ∧ (runWindow (c0 :: rest)).cancelled = (stales c0 rest).map fetchOf
    ∧ (runWindow (c0 :: rest)).active = none
    ∧ runWindow ((dedupConsec [none, some 1, some 2]).map (fun u => Combo.mk term u))
        = { active := none,
            cancelled := [FetchKind.all, FetchKind.byUser 1],
            delivered := [FetchKind.byUser 2] } := by
  refine ⟨?_, ?_, ?_, rfl⟩
  all_goals
    simp only [runWindow]
    rw [foldl_onEmit_run rest c0 initSwitch]
    simp [onSettle, initSwitch]

/-- Symmetry of key distinctness: the comparator negates under swapping. -/
lemma comparePosts_ne_symm (f : SortField) :
    Symmetric (fun a b : PostViewModel => comparePosts f a b ≠ 0) := by
  intro a b h
  have e := comparePosts_antisym f a b
  show comparePosts f b a ≠ 0
  omega

/-- With pairwise-distinct keys for the active field, re-sorting in the
opposite direction reverses the stably sorted list. -/
lemma sortPosts_flip_reverse (l : List PostViewModel) (f : SortField) (o : SortOrder)
    (hne : l.Pairwise (fun a b => comparePosts f a b ≠ 0)) :
    sortPosts l f (flipOrder o) = (sortPosts l f o).reverse := by
  have permA : (sortPosts l f (flipOrder o)).Perm l := List.perm_insertionSort _ l
  have permPre : (sortPosts l f o).Perm l := List.perm_insertionSort _ l
  have permB : ((sortPosts l f o).reverse).Perm l := (List.reverse_perm _).trans permPre
  have hneA : (sortPosts l f (flipOrder o)).Pairwise
      (fun a b => comparePosts f a b ≠ 0) :=
    (List.Perm.pairwise_iff (fun h => comparePosts_ne_symm f h) permA).mpr hne
  have hA : (sortPosts l f (flipOrder o)).Pairwise
      (fun a b => 0 < directedCompare f o a b) := by
    refine ((sortPosts_sorted l f (flipOrder o)).and hneA).imp ?_
    intro a b hab
    obtain ⟨hab1, hab2⟩ := hab
    have e1 := directedCompare_flip f o a b
    have e2 := directedCompare_ne_zero f o a b hab2
    omega
  have hrev : ((sortPosts l f o).reverse).Pairwise
      (fun a b => directedCompare f o b a ≤ 0) :=
    List.pairwise_reverse.mpr (sortPosts_sorted l f o)
  have hneB : ((sortPosts l f o).reverse).Pairwise
      (fun a b => comparePosts f a b ≠ 0) :=
    (List.Perm.pairwise_iff (fun h => comparePosts_ne_symm f h) permB).mpr hne
  have hB : ((sortPosts l f o).reverse).Pairwise
      (fun a b => 0 < directedCompare f o a b) := by
    refine (hrev.and hneB).imp ?_
    intro a b hab
    obtain ⟨hab1, hab2⟩ := hab
    have e1 := directedCompare_antisym f o a b
    have e2 := directedCompare_ne_zero f o a b hab2
    omega
  haveI : IsAntisymm PostViewModel (fun a b => 0 < directedCompare f o a b) := by
    constructor
    intro a b h1 h2
    have e := directedCompare_antisym f o a b
    have : False := by
      have h1' : 0 < directedCompare f o a b := h1
      have h2' : 0 < directedCompare f o b a := h2
      omega
    exact this.elim
  exact List.eq_of_perm_of_sorted (permA.trans permB.symm) hA hB

/-- Claim C8 counterexample: with two displayed posts sharing id 1, toggling
the id sort from ascending to descending leaves the stable order unchanged
(ties keep their relative order) instead of reversing the list. -/
theorem c8_sort_toggle_cex :
    sortPosts [tiePostA, tiePostB] .id .desc
      ≠ (sortPosts [tiePostA, tiePostB] .id .asc).reverse := by decide

/-- Claim C8 (amended): clicking the active sort field flips the direction and,
when no two posts share the active sort key, the displayed order is the exact
reverse of the previous one; a second click on the same field restores the
previous sort state (hence the previous order); clicking a different field
resets the direction to ascending. -/
theorem c8_sort_toggle :
    (∀ s f, s.sortBy = f →
        changeSort f s = { sortBy := f, sortOrder := flipOrder s.sortOrder })
    ∧ (∀ s f, s.sortBy ≠ f → changeSort f s = { sortBy := f, sortOrder := .asc })
    ∧ (∀ s f, s.sortBy = f → changeSort f (changeSort f s) = s)
    ∧ (∀ o, flipOrder (flipOrder o) = o)
    ∧ (∀ l f o, l.Pairwise (fun a b => comparePosts f a b ≠ 0) →
        sortPosts l f (flipOrder o) = (sortPosts l f o).reverse) := by
  refine ⟨?_, ?_, ?_, fun o => by cases o <;> rfl,
    fun l f o hne => sortPosts_flip_reverse l f o hne⟩
  · intro s f h
    simp [changeSort, h]
  · intro s f h
    simp [changeSort, h]
  · intro s f h
    cases s with
    | mk sb so =>
      have hb : sb = f := h
      subst hb
      simp [changeSort]
      cases so <;> rfl

/-- Claim C8 witness: on two posts with distinct ids, flipping the ascending
id sort yields the reversed list. -/
theorem c8_sort_toggle_witness :
    ([exPostA, exPostB] : List PostViewModel).Pairwise
        (fun a b => comparePosts .id a b ≠ 0)
    ∧ sortPosts [exPostA, exPostB] .id (flipOrder .asc)
        = (sortPosts [exPostA, exPostB] .id .asc).reverse :=
  ⟨by decide, c8_sort_toggle.2.2.2.2 [exPostA, exPostB] .id .asc (by decide)⟩

/-- Claim C10: sortPosts returns a permutation of its input (same elements
with the same multiplicities); the input list itself is left unmodified, the
function being pure (the source copies the array before sorting in place). -/
theorem c10_sortPosts_perm (l : List PostViewModel) (f : SortField) (o : SortOrder) :
    (sortPosts l f o).Perm l :=
  List.perm_insertionSort _ l

/-- A call with a populated cache returns the replayed outcome and leaves the
state untouched. -/
lemma getAllPosts_cached (net : Net) (s : SvcState)
    (c : Except HttpErr (List PostViewModel)) (h : s.postsCache = some c) :
    getAllPosts net s = (viewResult c, s) := by
  unfold getAllPosts
  rw [h]

/-- Iterated calls with a populated cache replay the same outcome and never
touch the network. -/
lemma runCalls_cached (net : Net) :
    ∀ (n : Nat) (s : SvcState) (c : Except HttpErr (List PostViewModel)),
      s.postsCache = some c →
      runCalls net n s = (List.replicate n (viewResult c), s) := by
  intro n
  induction n with
  | zero => intro s c h; simp [runCalls]
  | succ n ih =>
    intro s c h
    simp [runCalls, getAllPosts_cached net s c h, ih s c h, List.replicate_succ]

/-- A call with an empty cache runs the pipeline once and caches its outcome. -/
lemma getAllPosts_fresh (net : Net) (s : SvcState) (h : s.postsCache = none) :
    getAllPosts net s
      = (viewResult (fetchAllOnce net s.requests).1,
         { postsCache := some (fetchAllOnce net s.requests).1,
           requests := s.requests + (fetchAllOnce net s.requests).2,
           fetches := s.fetches + 1 }) := by
  unfold getAllPosts
  rw [h]

/-- retry(2) issues between 1 and 3 HTTP attempts. -/
lemma retryTwice_bounds (net : Net) (start : Nat) :
    1 ≤ (retryTwice net start).2 ∧ (retryTwice net start).2 ≤ 3 := by
  unfold retryTwice
  cases net start <;> cases net (start + 1) <;> cases net (start + 2) <;> simp

/-- n + 1 successive calls on an empty cache: one pipeline run, then replay. -/
lemma runCalls_fresh (net : Net) (n : Nat) (s : SvcState) (h : s.postsCache = none) :
    runCalls net (n + 1) s
      = (List.replicate (n + 1) (viewResult (fetchAllOnce net s.requests).1),
         { postsCache := some (fetchAllOnce net s.requests).1,
           requests := s.requests + (fetchAllOnce net s.requests).2,
           fetches := s.fetches + 1 }) := by
  have h1 := getAllPosts_fresh net s h
  have h2 := runCalls_cached net n
      { postsCache := some (fetchAllOnce net s.requests).1,
        requests := s.requests + (fetchAllOnce net s.requests).2,
        fetches := s.fetches + 1 }
      (fetchAllOnce net s.requests).1 rfl
  simp [runCalls, h1, h2, List.replicate_succ]

/-- Claim C1: across n + 1 successive getAllPosts calls with no intervening
clearCache, the underlying pipeline is subscribed exactly once (at most one
underlying fetch, which comprises exactly one HTTP request whenever the first
attempt succeeds, and never more than three attempts); every caller receives
the same replayed outcome, later subscribers included; after clearCache the
next call subscribes the pipeline exactly once more. -/
theorem c1_cache_one_fetch (net net2 : Net) (s : SvcState) (n : Nat)
    (h : s.postsCache = none) :
    (runCalls net (n + 1) s).2.fetches = s.fetches + 1
    ∧ (∃ r0, (runCalls net (n + 1) s).1 = List.replicate (n + 1) r0)
    ∧ (runCalls net (n + 1) s).2.requests ≤ s.requests + 3
    ∧ (∀ ps, net s.requests = .ok ps →
        (runCalls net (n + 1) s).2.requests = s.requests + 1)
    ∧ (clearCache (runCalls net (n + 1) s).2).postsCache = none
    ∧ (getAllPosts net2 (clearCache (runCalls net (n + 1) s).2)).2.fetches
        = (runCalls net (n + 1) s).2.fetches + 1 := by
  rw [runCalls_fresh net n s h]
  refine ⟨rfl, ⟨viewResult (fetchAllOnce net s.requests).1, rfl⟩, ?_, ?_, rfl, rfl⟩
  · have hb := retryTwice_bounds net s.requests
    have he : (fetchAllOnce net s.requests).2 = (retryTwice net s.requests).2 := rfl
    show s.requests + (fetchAllOnce net s.requests).2 ≤ s.requests + 3
    omega
  · intro ps hps
    have he : fetchAllOnce net s.requests = (.ok (ps.map transformPost), 1) := by
      simp [fetchAllOnce, retryTwice, hps, Except.map]
    rw [he]

/-- Claim C2: getAllPosts attempts the request up to 3 times in total; success
on any of the three attempts yields the mapped view models, while failure of
all three surfaces the formatted error, after exactly 3 attempts, and the
component derivation then records a user-facing message and delivers an empty
list. -/
theorem c2_retry_and_error_fallback (net : Net) (s : SvcState) (term : Str)
    (f : SortField) (o : SortOrder) (h : s.postsCache = none) :
    (getAllPosts net s).2.requests ≤ s.requests + 3
    ∧ (∀ ps, net s.requests = .ok ps →
        (getAllPosts net s).1 = .ok (ps.map transformPost))
    ∧ (∀ e1 ps, net s.requests = .error e1 → net (s.requests + 1) = .ok ps →
        (getAllPosts net s).1 = .ok (ps.map transformPost))
    ∧ (∀ e1 e2 ps, net s.requests = .error e1 → net (s.requests + 1) = .error e2 →
        net (s.requests + 2) = .ok ps →
        (getAllPosts net s).1 = .ok (ps.map transformPost))
    ∧ (∀ e1 e2 e3, net s.requests = .error e1 → net (s.requests + 1) = .error e2 →
        net (s.requests + 2) = .error e3 →
        (getAllPosts net s).1 = .error (handleError e3)
        ∧ (getAllPosts net s).2.requests = s.requests + 3
        ∧ deriveView term f o (getAllPosts net s).1
            = ([], some (componentErrMsg (handleError e3)))) := by
  rw [getAllPosts_fresh net s h]
  refine ⟨?_, ?_, ?_, ?_, ?_⟩
  · have hb := retryTwice_bounds net s.requests
    have he : (fetchAllOnce net s.requests).2 = (retryTwice net s.requests).2 := rfl
    show s.requests + (fetchAllOnce net s.requests).2 ≤ s.requests + 3
    omega
  · intro ps h1
    simp [fetchAllOnce, retryTwice, h1, viewResult, Except.map]
  · intro e1 ps h1 h2
    simp [fetchAllOnce, retryTwice, h1, h2, viewResult, Except.map]
  · intro e1 e2 ps h1 h2 h3
    simp [fetchAllOnce, retryTwice, h1, h2, h3, viewResult, Except.map]
  · intro e1 e2 e3 h1 h2 h3
    simp [fetchAllOnce, retryTwice, h1, h2, h3, viewResult, deriveView, Except.map]

/-- Claim C3: once all attempts have failed, the errored outcome is cached:
the current subscriber receives the formatted terminal error, and any later
getAllPosts call (under any network) replays the same error without touching
the state or the network, until clearCache drops the cached reference. -/
theorem c3_error_replayed (net net2 : Net) (s : SvcState) (e1 e2 e3 : HttpErr)
    (h : s.postsCache = none) (h1 : net s.requests = .error e1)
    (h2 : net (s.requests + 1) = .error e2) (h3 : net (s.requests + 2) = .error e3) :
    (getAllPosts net s).1 = .error (handleError e3)
    ∧ (getAllPosts net2 (getAllPosts net s).2).1 = .error (handleError e3)
    ∧ (getAllPosts net2 (getAllPosts net s).2).2 = (getAllPosts net s).2
    ∧ (getAllPosts net s).2.requests = s.requests + 3
    ∧ (clearCache (getAllPosts net s).2).postsCache = none := by
  have hfe : fetchAllOnce net s.requests = (.error e3, 3) := by
    simp [fetchAllOnce, retryTwice, h1, h2, h3, Except.map]
  rw [getAllPosts_fresh net s h, hfe]
  simp [getAllPosts, viewResult, clearCache]

/-- Claim C1 witness: two calls on a fresh service with an always-succeeding
network perform exactly one fetch. -/
theorem c1_cache_one_fetch_witness :
    (SvcState.postsCache ⟨none, 0, 0⟩ = none)
    ∧ (runCalls netOk 2 ⟨none, 0, 0⟩).2.fetches = SvcState.fetches ⟨none, 0, 0⟩ + 1 :=
  ⟨rfl, (c1_cache_one_fetch netOk netOk ⟨none, 0, 0⟩ 1 rfl).1⟩

/-- Claim C2 witness: with a network that always fails, the call surfaces the
formatted client error. -/
theorem c2_retry_and_error_fallback_witness :
    (SvcState.postsCache ⟨none, 0, 0⟩ = none)
    ∧ (getAllPosts netFail ⟨none, 0, 0⟩).1
        = .error (handleError (.client "boom".data)) :=
  ⟨rfl, ((c2_retry_and_error_fallback netFail ⟨none, 0, 0⟩ [] .id .asc rfl).2.2.2.2
      (.client "boom".data) (.client "boom".data) (.client "boom".data)
      rfl rfl rfl).1⟩

/-- Claim C3 witness: after a failing fetch, a later call under a succeeding
network still replays the cached error. -/
theorem c3_error_replayed_witness :
    (getAllPosts netOk (getAllPosts netFail ⟨none, 0, 0⟩).2).1
      = .error (handleError (.client "boom".data)) :=
  (c3_error_replayed netFail netOk ⟨none, 0, 0⟩
    (.client "boom".data) (.client "boom".data) (.client "boom".data)
    rfl rfl rfl rfl).2.1

/-- Claim C9 counterexample: the string 12abc is not a numeral, yet the
normalization maps it to 12 (parseInt parses the leading digit run) rather
than to null. -/
theorem c9_normalize_cex :
    normalizeUserId (CtrlValue.str "12abc".data) = some 12
    ∧ normalizeUserId (CtrlValue.str "12abc".data) ≠ none :=
  ⟨by decide, by decide⟩

/-- Claim C9 (amended): normalization yields null or an integer: null,
undefined, the empty string, whitespace-only strings and the string null map
to null; number values pass through unchanged; any other string is parsed
with parseInt semantics (longest leading digit run after optional whitespace
and sign), mapping to null exactly when no such run exists. -/
theorem c9_normalize :
    normalizeUserId .null = none
    ∧ normalizeUserId .undef = none
    ∧ normalizeUserId (.str []) = none
    ∧ normalizeUserId (.str "null".data) = none
    ∧ (∀ s, jsTrim s = [] → normalizeUserId (.str s) = none)
    ∧ (∀ n, normalizeUserId (.num n) = some n)
    ∧ (∀ s, jsParseInt s = none → normalizeUserId (.str s) = none)
    ∧ (∀ s, s ≠ [] → s ≠ "null".data → jsTrim s ≠ [] →
        normalizeUserId (.str s) = jsParseInt s) := by
  refine ⟨rfl, rfl, rfl, by decide, ?_, fun n => rfl, ?_, ?_⟩
  · intro s hs
    by_cases h0 : s = []
    · subst h0; rfl
    · simp [normalizeUserId, h0, hs]
  · intro s hp
    by_cases h0 : s = []
    · subst h0; rfl
    · by_cases h1 : s = "null".data ∨ jsTrim s = []
      · simp [normalizeUserId, h0, h1]
      · simp [normalizeUserId, h0, h1, hp]
  · intro s h0 h1 h2
    simp [normalizeUserId, h0, h1, h2]

/-- Claim C9 witness: whitespace-only input, a number, a digit-free string and
a numeric string, each normalized per the amended statement. -/
theorem c9_normalize_witness :
    normalizeUserId (.str "  ".data) = none
    ∧ normalizeUserId (.num 7) = some 7
    ∧ normalizeUserId (.str "abc".data) = none
    ∧ normalizeUserId (.str "42".data) = jsParseInt "42".data :=
  ⟨c9_normalize.2.2.2.2.1 "  ".data (by decide),
   c9_normalize.2.2.2.2.2.1 7,
   c9_normalize.2.2.2.2.2.2.1 "abc".data (by decide),
   c9_normalize.2.2.2.2.2.2.2 "42".data (by decide) (by decide) (by decide)⟩

end RxDemo
